import Mathlib

/-!
Verification of the dev-portal frontend core logic: the developer-detail
response normalizer (`ApiService.getDeveloper` in `src/services/api.ts`),
the entity-list controllers (`DevelopersManagement.tsx`,
`ProjectsManagement.tsx`), the project-creation wizard, and the
developer skills modal.

Modelling conventions: a raw server payload field that may be absent,
`null`, or `undefined` at runtime is an `Option`; the JavaScript nullish
coalescing operator `a ?? b` is `orNullish a b`; a collection field guarded
by `Array.isArray` in the source is `Option (List _)`, where `none` stands
for a missing key, a `null`, or a non-array value.  Handlers that perform
side effects are modelled as pure functions returning the new state
together with an explicit list of effects (toasts, HTTP requests,
callbacks), so that "issues no network call" is the absence of an HTTP
effect in the returned list.
-/

/-- The JavaScript nullish-coalescing operator `a ?? b` restricted to
`Option`: the left operand wins whenever it is present (non-nullish). -/
def orNullish {α : Type} (a b : Option α) : Option α :=
  match a with
  | some x => some x
  | none => b

/-- Raw skill object inside a developer-detail response
(`raw.data.skills[i].skills[j]` in `ApiService.getDeveloper`): may carry
either the `skill_id`/`skill_name` or the `id`/`name` key scheme. -/
structure RawSkill where
  skill_id : Option Nat
  id : Option Nat
  skill_name : Option String
  name : Option String
deriving DecidableEq

/-- Raw skill-area grouping inside a developer-detail response
(`raw.data.skills[i]`): alias keys `skill_area_id`/`skill_area_name`
versus `id`/`name`, plus a `skills` collection guarded by `Array.isArray`. -/
structure RawSkillArea where
  skill_area_id : Option Nat
  id : Option Nat
  skill_area_name : Option String
  name : Option String
  skills : Option (List RawSkill)
deriving DecidableEq

/-- Raw embedded project inside a developer-detail response
(`raw.data.projects[i]`): backend key scheme `project_*` versus the
canonical keys. -/
structure RawProject where
  project_id : Option Nat
  id : Option Nat
  project_name : Option String
  name : Option String
  project_description : Option String
  description : Option String
  project_categories : Option (List Nat)
  project_tech_stack : Option (List String)
  tech_stack : Option (List String)
  project_origin : Option String
  skills : Option (List Nat)
  repo_link : Option String
  doc_link : Option String
  presentation_link : Option String
  live_link : Option String
  created_at : Option String
deriving DecidableEq

/-- The `raw.data` object of a developer-detail response as
`ApiService.getDeveloper` reads it: primitive fields are copied directly
(so they may be absent at runtime), `skills` and `projects` are guarded
by `Array.isArray`. -/
structure RawDeveloper where
  id : Option Nat
  name : Option String
  email : Option String
  role : Option String
  graduation_date : Option String
  industry_experience : Option Nat
  employment_start_date : Option String
  is_available : Option Bool
  last_updated : Option String
  created_at : Option String
  skills : Option (List RawSkillArea)
  projects : Option (List RawProject)
deriving DecidableEq

/-- Canonical skill produced by the normalizer: the object literal
`{ id: s.skill_id ?? s.id, name: s.skill_name ?? s.name, skill_area: ... }`
in `ApiService.getDeveloper`. -/
structure Skill where
  id : Option Nat
  name : Option String
  skill_area : Option Nat
deriving DecidableEq

/-- Canonical skill-area grouping produced by the normalizer:
`{ id, name, skills }` in `ApiService.getDeveloper`. -/
structure SkillAreaGroup where
  id : Option Nat
  name : Option String
  skills : List Skill
deriving DecidableEq

/-- Canonical project summary produced by the normalizer: the object
literal built for each element of `raw.data.projects`. -/
structure ProjectSummary where
  id : Option Nat
  developer : Option Nat
  name : Option String
  description : Option String
  project_categories : List Nat
  tech_stack : List String
  project_origin : Option String
  skills : List Nat
  repo_link : Option String
  doc_link : Option String
  presentation_link : Option String
  live_link : Option String
  created_at : Option String
deriving DecidableEq

/-- Canonical developer produced by `ApiService.getDeveloper`: primitive
fields copied through, `skills` and `projects` always lists. -/
structure NormalizedDeveloper where
  id : Option Nat
  name : Option String
  email : Option String
  role : Option String
  graduation_date : Option String
  industry_experience : Option Nat
  employment_start_date : Option String
  is_available : Option Bool
  last_updated : Option String
  created_at : Option String
  skills : List SkillAreaGroup
  projects : List ProjectSummary
deriving DecidableEq

/-- The per-skill mapping in `ApiService.getDeveloper`:
`(s) => ({ id: s.skill_id ?? s.id, name: s.skill_name ?? s.name,
skill_area: area.skill_area_id ?? area.id })`.  `areaAlias` is the value
of `area.skill_area_id ?? area.id` for the enclosing grouping. -/
def normalizeSkill (areaAlias : Option Nat) (s : RawSkill) : Skill :=
  { id := orNullish s.skill_id s.id
    name := orNullish s.skill_name s.name
    skill_area := areaAlias }

/-- The per-area mapping in `ApiService.getDeveloper`:
`(area) => ({ id: area.skill_area_id ?? area.id,
name: area.skill_area_name ?? area.name,
skills: Array.isArray(area.skills) ? area.skills.map(...) : [] })`. -/
def normalizeSkillArea (area : RawSkillArea) : SkillAreaGroup :=
  { id := orNullish area.skill_area_id area.id
    name := orNullish area.skill_area_name area.name
    skills :=
      match area.skills with
      | some l => l.map (normalizeSkill (orNullish area.skill_area_id area.id))
      | none => [] }

/-- The per-project mapping in `ApiService.getDeveloper`; `devId` is
`raw.data.id`, copied into the `developer` field of every summary. -/
def normalizeProject (devId : Option Nat) (p : RawProject) : ProjectSummary :=
  { id := orNullish p.project_id p.id
    developer := devId
    name := orNullish p.project_name p.name
    description := orNullish p.project_description p.description
    project_categories := p.project_categories.getD []
    tech_stack := (orNullish p.project_tech_stack p.tech_stack).getD []
    project_origin := p.project_origin
    skills := p.skills.getD []
    repo_link := p.repo_link
    doc_link := p.doc_link
    presentation_link := p.presentation_link
    live_link := p.live_link
    created_at := p.created_at }

/-- The normalization performed by `ApiService.getDeveloper` on the `data`
member of the response envelope (the network fetch itself is outside the
model): primitive fields are copied, grouped skills and embedded projects
are mapped to the canonical shapes, missing or non-array collections
become `[]`. -/
def getDeveloper (raw : RawDeveloper) : NormalizedDeveloper :=
  { id := raw.id
    name := raw.name
    email := raw.email
    role := raw.role
    graduation_date := raw.graduation_date
    industry_experience := raw.industry_experience
    employment_start_date := raw.employment_start_date
    is_available := raw.is_available
    last_updated := raw.last_updated
    created_at := raw.created_at
    skills :=
      match raw.skills with
      | some l => l.map normalizeSkillArea
      | none => []
    projects :=
      match raw.projects with
      | some l => l.map (normalizeProject raw.id)
      | none => [] }

/-- Re-reading a canonical skill as a raw payload: the canonical key
scheme uses the plain `id`/`name` keys and carries no alias keys. -/
def Skill.toRaw (s : Skill) : RawSkill :=
  { skill_id := none
    id := s.id
    skill_name := none
    name := s.name }

/-- Re-reading a canonical skill-area grouping as a raw payload. -/
def SkillAreaGroup.toRaw (g : SkillAreaGroup) : RawSkillArea :=
  { skill_area_id := none
    id := g.id
    skill_area_name := none
    name := g.name
    skills := some (g.skills.map Skill.toRaw) }

/-- Re-reading a canonical project summary as a raw payload. -/
def ProjectSummary.toRaw (p : ProjectSummary) : RawProject :=
  { project_id := none
    id := p.id
    project_name := none
    name := p.name
    project_description := none
    description := p.description
    project_categories := some p.project_categories
    project_tech_stack := none
    tech_stack := some p.tech_stack
    project_origin := p.project_origin
    skills := some p.skills
    repo_link := p.repo_link
    doc_link := p.doc_link
    presentation_link := p.presentation_link
    live_link := p.live_link
    created_at := p.created_at }

/-- Re-reading a canonical developer as a raw developer-detail payload. -/
def NormalizedDeveloper.toRaw (d : NormalizedDeveloper) : RawDeveloper :=
  { id := d.id
    name := d.name
    email := d.email
    role := d.role
    graduation_date := d.graduation_date
    industry_experience := d.industry_experience
    employment_start_date := d.employment_start_date
    is_available := d.is_available
    last_updated := d.last_updated
    created_at := d.created_at
    skills := some (d.skills.map SkillAreaGroup.toRaw)
    projects := some (d.projects.map ProjectSummary.toRaw) }

/-! ### Entity list controllers (`DevelopersManagement.tsx`, `ProjectsManagement.tsx`) -/

/-- The `Developer` entity as held in the developers list
(`types/api.ts` interface `Developer`, detail collections omitted —
the list endpoint does not populate them). -/
structure Developer where
  id : Nat
  name : String
  email : String
  role : String
  graduation_date : String
  industry_experience : Nat
  employment_start_date : String
  is_available : Bool
  last_updated : Option String
  created_at : Option String
deriving DecidableEq

/-- The `DeveloperProject` entity as held in the projects list
(`types/api.ts` interface `DeveloperProject`). -/
structure DeveloperProject where
  id : Nat
  developer : Nat
  developer_name : Option String
  name : String
  description : Option String
  project_categories : List Nat
  tech_stack : List String
  project_origin : String
  skills : List Nat
  repo_link : Option String
  doc_link : Option String
  presentation_link : Option String
  live_link : Option String
  created_at : Option String
deriving DecidableEq

/-- The `count`/`page_size` pair of the response envelope pagination
object (`ApiResponse.pagination`). -/
structure Pagination where
  count : Nat
  page_size : Nat
deriving DecidableEq

/-- `Math.ceil(count / page_size)` for natural operands and a positive
divisor, as computed by `fetchDevelopers` and `fetchProjects`. -/
def mathCeilDiv (count page_size : Nat) : Nat :=
  (count + page_size - 1) / page_size

/-- `DevelopersManagement.fetchDevelopers`: on a successful response,
`totalPages` is recomputed from the pagination pair when one is present
and left unchanged otherwise. -/
def fetchDevelopersTotalPages (totalPages : Nat) (pagination : Option Pagination) : Nat :=
  match pagination with
  | some pg => mathCeilDiv pg.count pg.page_size
  | none => totalPages

/-- `ProjectsManagement.fetchProjects`: same `totalPages` bookkeeping as
the developers controller. -/
def fetchProjectsTotalPages (totalPages : Nat) (pagination : Option Pagination) : Nat :=
  match pagination with
  | some pg => mathCeilDiv pg.count pg.page_size
  | none => totalPages

/-- An effect emitted by a list-controller handler. -/
inductive ListEffect where
  | toastSuccess (msg : String)
  | toastError (msg : String)
  | httpRequest (path : String)
deriving DecidableEq

/-- `DevelopersManagement.handleDeleteDeveloper`: when the user confirms,
the developer is filtered out of local state and a success toast is shown;
no API endpoint is called in either case. -/
def handleDeleteDeveloper (confirmed : Bool) (developers : List Developer) (id : Nat) :
    List Developer × List ListEffect :=
  if confirmed then
    (developers.filter (fun dev => dev.id ≠ id),
     [ListEffect.toastSuccess "Developer deleted successfully!"])
  else
    (developers, [])

/-- `ProjectsManagement.handleDeleteProject`: same client-only deletion
for the projects list. -/
def handleDeleteProject (confirmed : Bool) (projects : List DeveloperProject) (id : Nat) :
    List DeveloperProject × List ListEffect :=
  if confirmed then
    (projects.filter (fun proj => proj.id ≠ id),
     [ListEffect.toastSuccess "Project deleted successfully!"])
  else
    (projects, [])

/-- `ProjectsManagement.handleSaveProject`: after a save, an edit
(`selectedProject` set) maps over the list replacing items whose id
matches the saved project; a creation appends to the end. -/
def handleSaveProject (selectedProject : Option DeveloperProject)
    (projects : List DeveloperProject) (project : DeveloperProject) :
    List DeveloperProject :=
  match selectedProject with
  | some _ => projects.map (fun proj => if proj.id = project.id then project else proj)
  | none => projects ++ [project]

/-- What `DevelopersManagement.handleSaveDeveloper` does after a save:
for an update it re-fetches the whole page, for a creation it appends
locally. -/
inductive SaveDeveloperAction where
  | refetchList
  | appendLocal
deriving DecidableEq

/-- The branch taken by `DevelopersManagement.handleSaveDeveloper`:
`selectedDeveloperId` set means update, which calls `fetchDevelopers()`
(a GET request) instead of patching local state. -/
def handleSaveDeveloperAction (selectedDeveloperId : Option Nat) : SaveDeveloperAction :=
  match selectedDeveloperId with
  | some _ => SaveDeveloperAction.refetchList
  | none => SaveDeveloperAction.appendLocal

/-- The developers list after `DevelopersManagement.handleSaveDeveloper`:
an update replaces the list wholesale with the re-fetched server page
(`refetched`); a creation appends the new developer. -/
def handleSaveDeveloper (selectedDeveloperId : Option Nat)
    (developers refetched : List Developer) (developer : Developer) :
    List Developer :=
  match selectedDeveloperId with
  | some _ => refetched
  | none => developers ++ [developer]

/-! ### Developer modal dirty-field diffing (`DeveloperModal.onSubmit`) -/

/-- The developer form values (`types/api.ts` interface
`CreateDeveloperRequest`; the modal form always carries all seven
fields). -/
structure CreateDeveloperRequest where
  name : String
  email : String
  role : String
  graduation_date : String
  industry_experience : Nat
  employment_start_date : String
  is_available : Bool
deriving DecidableEq

/-- The partial PUT body assembled by `DeveloperModal.onSubmit`: a key is
present exactly when it was copied into `changedData`. -/
structure DeveloperPatch where
  name : Option String
  email : Option String
  role : Option String
  graduation_date : Option String
  industry_experience : Option Nat
  employment_start_date : Option String
  is_available : Option Bool
deriving DecidableEq

/-- The `Object.keys(data).forEach` loop of `DeveloperModal.onSubmit`:
each field of the submitted form is copied into `changedData` exactly
when it differs (`!==`) from the `originalData` snapshot. -/
def computeChangedData (data orig : CreateDeveloperRequest) : DeveloperPatch :=
  { name := if data.name ≠ orig.name then some data.name else none
    email := if data.email ≠ orig.email then some data.email else none
    role := if data.role ≠ orig.role then some data.role else none
    graduation_date :=
      if data.graduation_date ≠ orig.graduation_date then some data.graduation_date else none
    industry_experience :=
      if data.industry_experience ≠ orig.industry_experience
      then some data.industry_experience else none
    employment_start_date :=
      if data.employment_start_date ≠ orig.employment_start_date
      then some data.employment_start_date else none
    is_available :=
      if data.is_available ≠ orig.is_available then some data.is_available else none }

/-- `Object.keys(changedData).length` for a patch. -/
def DeveloperPatch.keyCount (c : DeveloperPatch) : Nat :=
  (if c.name.isSome then 1 else 0) +
  (if c.email.isSome then 1 else 0) +
  (if c.role.isSome then 1 else 0) +
  (if c.graduation_date.isSome then 1 else 0) +
  (if c.industry_experience.isSome then 1 else 0) +
  (if c.employment_start_date.isSome then 1 else 0) +
  (if c.is_available.isSome then 1 else 0)

/-- Outcome of `DeveloperModal.onSubmit`: an empty diff short-circuits
with a toast and no request; otherwise the diff is PUT, or the full form
is POSTed when creating. -/
inductive SubmitAction where
  | noChanges
  | putUpdate (id : Nat) (payload : DeveloperPatch)
  | postCreate (payload : CreateDeveloperRequest)
deriving DecidableEq

/-- `DeveloperModal.onSubmit`: with a developer id and a loaded snapshot
it diffs the form against the snapshot; an empty diff issues no network
call at all, a non-empty diff is sent as a partial PUT.  Without an id or
snapshot the full form is POSTed as a creation. -/
def onSubmit (developerId : Option Nat) (originalData : Option CreateDeveloperRequest)
    (data : CreateDeveloperRequest) : SubmitAction :=
  match developerId, originalData with
  | some devId, some orig =>
      let changedData := computeChangedData data orig
      if changedData.keyCount = 0 then SubmitAction.noChanges
      else SubmitAction.putUpdate devId changedData
  | some _, none => SubmitAction.postCreate data
  | none, _ => SubmitAction.postCreate data

/-! ### Project-creation wizard (`ProjectSkillsSelectionModal`) -/

/-- The basics draft carried into the skill-selection step
(`projectData` assembled by `ProjectModal` and passed through
`handleNextToSkills`). -/
structure ProjectDraft where
  developer : Nat
  name : String
  description : Option String
  project_categories : List Nat
  tech_stack : List String
  project_origin : String
deriving DecidableEq

/-- The single creation payload of the final wizard action:
`{ ...projectData, skills: selectedSkills }`. -/
structure FinalProjectPayload where
  draft : ProjectDraft
  skills : List Nat
deriving DecidableEq

/-- State of the skill-selection step of the wizard. -/
structure SkillSelectionState where
  projectData : ProjectDraft
  selectedSkillArea : Option Nat
  skills : List Nat
  selectedSkills : List Nat
  isCreating : Bool
deriving DecidableEq

/-- An effect emitted by the wizard's final action. -/
inductive WizardEffect where
  | toastError (msg : String)
  | toastSuccess (msg : String)
  | httpPost (payload : FinalProjectPayload)
  | onSaveProject (created : DeveloperProject)
  | closeModal
deriving DecidableEq

/-- `ProjectSkillsSelectionModal.handleCreateProject`: with no skill
selected the handler warns and returns before touching any state or the
network; otherwise it POSTs the combined payload once, and on
success/failure emits the corresponding toasts (`net` is the outcome of
that single request). -/
def handleCreateProject (st : SkillSelectionState) (net : Except Unit DeveloperProject) :
    SkillSelectionState × List WizardEffect :=
  if st.selectedSkills.length = 0 then
    (st, [WizardEffect.toastError "Please select at least one skill"])
  else
    let payload : FinalProjectPayload := ⟨st.projectData, st.selectedSkills⟩
    match net with
    | Except.ok created =>
        ({ st with isCreating := false },
         [WizardEffect.httpPost payload,
          WizardEffect.toastSuccess "Project created successfully!",
          WizardEffect.onSaveProject created,
          WizardEffect.closeModal])
    | Except.error _ =>
        ({ st with isCreating := false },
         [WizardEffect.httpPost payload,
          WizardEffect.toastError "Failed to create project"])

/-! ### Project modal tech stack (`ProjectModal.addTech` / `removeTech`) -/

/-- `ProjectModal.addTech`: the input is trimmed and appended only when
the trimmed string is truthy (non-empty) and not already present. -/
def addTech (newTech : String) (techStack : List String) : List String :=
  if newTech.trim ≠ "" ∧ newTech.trim ∉ techStack then
    techStack ++ [newTech.trim]
  else
    techStack

/-- `ProjectModal.removeTech`: filters out every occurrence of the given
entry. -/
def removeTech (tech : String) (techStack : List String) : List String :=
  techStack.filter (fun t => t ≠ tech)

/-! ### Developer skills modal (`DeveloperSkillsModal.handleAddSkills`) -/

/-- The method names defined on `ApiService` in `src/services/api.ts`. -/
def apiServiceMethods : List String :=
  ["getDevelopers", "getDeveloper", "createDeveloper", "updateDeveloper",
   "addSkillsToDeveloper", "getSkillAreas", "getSkillArea", "createSkillArea",
   "addSkillsToArea", "getDeveloperProjects", "getDeveloperProject",
   "createDeveloperProject", "updateDeveloperProject", "getProjectCategories",
   "getProjectCategory", "createProjectCategory", "updateProjectCategory",
   "updateProjectCategoryDescription", "updateProjectCategoryUseCases",
   "addRequiredSkills", "addSkillsToSkillArea", "queryAgent", "analyzeProject"]

/-- An effect emitted by `DeveloperSkillsModal.handleAddSkills`. -/
inductive SkillsModalEffect where
  | toastError (msg : String)
  | toastSuccess (msg : String)
  | httpPost (path : String)
  | onSkillsAdded
  | closeModal
deriving DecidableEq

/-- Result of running `DeveloperSkillsModal.handleAddSkills`: the emitted
effects, the selection state after the handler, and whether `onClose` was
invoked. -/
structure SkillsModalResult where
  effects : List SkillsModalEffect
  selectedSkills : List Nat
  modalClosed : Bool
deriving DecidableEq

/-- `DeveloperSkillsModal.handleAddSkills`: after the guard it invokes
`apiService.addDeveloperSkills`, a name `ApiService` never defines.  In
JavaScript the property lookup yields `undefined` and the call throws a
`TypeError` before any request is built, so control lands in the `catch`
branch: a failure toast, no HTTP request, the modal left open and the
selection untouched.  The branch guarded by the method-table membership
models what the success path would have done had the method existed. -/
def handleAddSkills (developer : Option Nat) (selectedSkills : List Nat) :
    SkillsModalResult :=
  match developer with
  | none =>
      ⟨[SkillsModalEffect.toastError "Please select at least one skill"],
       selectedSkills, false⟩
  | some _ =>
      if selectedSkills.length = 0 then
        ⟨[SkillsModalEffect.toastError "Please select at least one skill"],
         selectedSkills, false⟩
      else if "addDeveloperSkills" ∈ apiServiceMethods then
        ⟨[SkillsModalEffect.httpPost "/api/developers/add_dev_skills/",
          SkillsModalEffect.toastSuccess "Skills added successfully!",
          SkillsModalEffect.onSkillsAdded,
          SkillsModalEffect.closeModal],
         selectedSkills, true⟩
      else
        ⟨[SkillsModalEffect.toastError "Failed to add skills"],
         selectedSkills, false⟩

/-! ### Concrete fixtures used by witness theorems -/

/-- A raw skill carrying both key schemes with different values. -/
def wSkillC1 : RawSkill := ⟨some 5, some 6, some "Django", some "OldName"⟩

/-- A raw grouping carrying both key schemes with different values. -/
def wAreaC1 : RawSkillArea := ⟨some 10, some 99, some "Backend", some "Old", some [wSkillC1]⟩

/-- A raw embedded project carrying both name keys with different values. -/
def wProjC1 : RawProject :=
  ⟨some 21, some 22, some "Portal", some "Legacy", some "desc", none, some [3],
   some ["React"], none, some "internal", some [5], none, none, none, none, none⟩

/-- A raw developer-detail payload containing the three alias conflicts. -/
def wDevC1 : RawDeveloper :=
  ⟨some 7, some "Ada", some "ada@example.com", some "Engineer", some "2019-06-01",
   some 4, some "2020-01-15", some true, none, none, some [wAreaC1], some [wProjC1]⟩

/-- A raw developer-detail payload with `skills` and `projects` missing. -/
def wDevC2 : RawDeveloper :=
  ⟨some 7, some "Ada", some "ada@example.com", some "Engineer", some "2019-06-01",
   some 4, some "2020-01-15", some true, none, none, none, none⟩

/-- A developer list entity used in the list-controller witnesses. -/
def wDevA : Developer :=
  ⟨1, "Alice", "alice@example.com", "Engineer", "2020-01-01", 2, "2021-01-01",
   true, none, none⟩

/-- The same developer with an edited role, as returned by a PUT. -/
def wDevA1 : Developer :=
  ⟨1, "Alice", "alice@example.com", "Senior AI Engineer", "2020-01-01", 2,
   "2021-01-01", true, none, none⟩

/-- A second developer, present only in the re-fetched server page. -/
def wDevB : Developer :=
  ⟨2, "Bob", "bob@example.com", "Designer", "2019-01-01", 3, "2020-06-01",
   false, none, none⟩

/-- A project list entity used in the list-controller witnesses. -/
def wProjX : DeveloperProject :=
  ⟨11, 1, some "Alice", "AI Chatbot", some "bot", [3], ["React"], "internal",
   [5], none, none, none, none, none⟩

/-- A second project list entity with a different id. -/
def wProjY : DeveloperProject :=
  ⟨12, 2, some "Bob", "Portal", none, [], ["Vue"], "client", [6], none, none,
   none, none, none⟩

/-- The edited version of `wProjX` returned by a PUT. -/
def wProjX1 : DeveloperProject :=
  ⟨11, 1, some "Alice", "AI Chatbot v2", some "bot", [3], ["React"], "internal",
   [5], none, none, none, none, none⟩

/-- A form snapshot used in the dirty-diff witness. -/
def wOrigC5 : CreateDeveloperRequest :=
  ⟨"Alice", "alice@example.com", "Engineer", "2020-01-01", 2, "2021-01-01", true⟩

/-- A wizard skill-selection state with an empty selection. -/
def wStC6 : SkillSelectionState :=
  ⟨⟨1, "AI Chatbot", some "bot", [3], ["React"], "internal"⟩, some 10, [5, 6], [], false⟩

/-! ## Helper lemmas -/

/-- `none ?? b` evaluates to `b`. -/
@[simp] theorem orNullish_none {α : Type} (b : Option α) : orNullish none b = b := rfl

/-- Normalizing a canonical skill read back as a raw payload changes
nothing. -/
theorem normalizeSkill_toRaw (x : Option Nat) (s : RawSkill) :
    normalizeSkill x (Skill.toRaw (normalizeSkill x s)) = normalizeSkill x s := rfl

/-- Normalizing a canonical grouping read back as a raw payload changes
nothing. -/
theorem normalizeSkillArea_toRaw (a : RawSkillArea) :
    normalizeSkillArea (SkillAreaGroup.toRaw (normalizeSkillArea a)) = normalizeSkillArea a := by
  rcases hs : a.skills with _ | l <;>
    simp [normalizeSkillArea, SkillAreaGroup.toRaw, hs, List.map_map, Function.comp,
      normalizeSkill_toRaw]

/-- Normalizing a canonical project summary read back as a raw payload
changes nothing. -/
theorem normalizeProject_toRaw (i : Option Nat) (p : RawProject) :
    normalizeProject i (ProjectSummary.toRaw (normalizeProject i p)) = normalizeProject i p := rfl

/-! ## Claim theorems -/

/-- C1: whenever a raw skill object in a developer-detail response carries
both `skill_id` and `id` with different values, `getDeveloper` normalizes
its id to the `skill_id` value; a grouping carrying both `skill_area_id`
and `id` normalizes its id to `skill_area_id`; a project carrying both
`project_name` and `name` normalizes its name to `project_name`
(first alias in priority order wins). -/
theorem getDeveloper_alias_precedence
    (r : RawDeveloper) (areas : List RawSkillArea) (projs : List RawProject)
    (a : RawSkillArea) (sl : List RawSkill) (s : RawSkill) (p : RawProject)
    (sid i ai aj : Nat) (pn n : String)
    (hra : r.skills = some areas) (hmema : a ∈ areas)
    (hsl : a.skills = some sl) (hmems : s ∈ sl)
    (hrp : r.projects = some projs) (hmemp : p ∈ projs)
    (hs1 : s.skill_id = some sid) (hs2 : s.id = some i) (hsne : sid ≠ i)
    (ha1 : a.skill_area_id = some ai) (ha2 : a.id = some aj) (hane : ai ≠ aj)
    (hp1 : p.project_name = some pn) (hp2 : p.name = some n) (hpne : pn ≠ n) :
    (normalizeSkillArea a).id = some ai ∧
    (∃ sk ∈ (normalizeSkillArea a).skills, sk.id = some sid ∧ sk.skill_area = some ai) ∧
    normalizeSkillArea a ∈ (getDeveloper r).skills ∧
    normalizeProject r.id p ∈ (getDeveloper r).projects ∧
    (normalizeProject r.id p).name = some pn := by
  refine ⟨?_, ?_, ?_, ?_, ?_⟩
  · simp [normalizeSkillArea, ha1, orNullish]
  · refine ⟨normalizeSkill (orNullish a.skill_area_id a.id) s, ?_, ?_, ?_⟩
    · simp only [normalizeSkillArea, hsl]
      exact List.mem_map_of_mem _ hmems
    · simp [normalizeSkill, hs1, orNullish]
    · simp [normalizeSkill, ha1, orNullish]
  · simp only [getDeveloper, hra]
    exact List.mem_map_of_mem _ hmema
  · simp only [getDeveloper, hrp]
    exact List.mem_map_of_mem _ hmemp
  · simp [normalizeProject, hp1, orNullish]

/-- C1 witness: the alias-precedence theorem instantiated at a concrete
payload in which every alias pair disagrees. -/
theorem getDeveloper_alias_precedence_witness :
    (normalizeSkillArea wAreaC1).id = some 10 ∧
    (∃ sk ∈ (normalizeSkillArea wAreaC1).skills, sk.id = some 5 ∧ sk.skill_area = some 10) ∧
    normalizeSkillArea wAreaC1 ∈ (getDeveloper wDevC1).skills ∧
    normalizeProject wDevC1.id wProjC1 ∈ (getDeveloper wDevC1).projects ∧
    (normalizeProject wDevC1.id wProjC1).name = some "Portal" :=
  getDeveloper_alias_precedence wDevC1 [wAreaC1] [wProjC1] wAreaC1 [wSkillC1] wSkillC1 wProjC1
    5 6 10 99 "Portal" "Legacy" rfl (by decide) rfl (by decide) rfl (by decide)
    rfl rfl (by decide) rfl rfl (by decide) rfl rfl (by decide)

/-- C2: when the `skills` or `projects` key of the raw payload is missing,
null, or not an array, `getDeveloper` yields `[]` for the corresponding
field (the normalizer is a total function, so it never throws). -/
theorem getDeveloper_array_default (r : RawDeveloper) :
    (r.skills = none → (getDeveloper r).skills = []) ∧
    (r.projects = none → (getDeveloper r).projects = []) := by
  constructor <;> intro h <;> simp [getDeveloper, h]

/-- C2 witness: the array-default theorem at a payload with both
collections missing. -/
theorem getDeveloper_array_default_witness :
    (getDeveloper wDevC2).skills = [] ∧ (getDeveloper wDevC2).projects = [] :=
  ⟨(getDeveloper_array_default wDevC2).1 rfl, (getDeveloper_array_default wDevC2).2 rfl⟩

/-- C3: `getDeveloper` is idempotent — re-normalizing any already-canonical
developer (any output of the normalizer, read back as a raw payload in the
canonical key scheme) yields the same object, with no double-transformation
artifacts. -/
theorem getDeveloper_idempotent (r : RawDeveloper) :
    getDeveloper (NormalizedDeveloper.toRaw (getDeveloper r)) = getDeveloper r := by
  rcases hs : r.skills with _ | areas <;> rcases hp : r.projects with _ | projs <;>
    simp [getDeveloper, NormalizedDeveloper.toRaw, hs, hp, List.map_map, Function.comp,
      normalizeSkillArea_toRaw, normalizeProject_toRaw]

/-- `mathCeilDiv` is the ceiling of the real division for a positive
divisor: it is the least `m` with `c ≤ m * ps`; it is positive for
positive `c` and zero at `c = 0`. -/
theorem mathCeilDiv_spec (c ps : Nat) (hps : 0 < ps) :
    c ≤ mathCeilDiv c ps * ps ∧ (∀ m, c ≤ m * ps → mathCeilDiv c ps ≤ m) ∧
    (1 ≤ c → 1 ≤ mathCeilDiv c ps) ∧ (c = 0 → mathCeilDiv c ps = 0) := by
  unfold mathCeilDiv
  refine ⟨?_, ?_, ?_, ?_⟩
  · have h1 : c + ps - 1 ≤ ps * ((c + ps - 1) / ps) + (ps - 1) :=
      (Nat.div_le_iff_le_mul_add_pred hps).1 (Nat.le_refl _)
    have key : ∀ A : Nat, c + ps - 1 ≤ A + (ps - 1) → c ≤ A := by
      intro A hA
      omega
    rw [Nat.mul_comm]
    exact key _ h1
  · intro m hm
    have key : ∀ B : Nat, c ≤ B → c + ps - 1 ≤ B + (ps - 1) := by
      intro B hB
      omega
    have h2 : c + ps - 1 ≤ ps * m + (ps - 1) := key (ps * m) (by rw [Nat.mul_comm]; exact hm)
    exact (Nat.div_le_iff_le_mul_add_pred hps).2 h2
  · intro hc
    have h3 : ps ≤ c + ps - 1 := by omega
    exact (Nat.one_le_div_iff hps).2 h3
  · intro hc
    subst hc
    simpa using Nat.div_eq_of_lt (show ps - 1 < ps by omega)

/-- C4 counterexample: at `count = 0`, `page_size = 10` both controllers
set `totalPages` to `Math.ceil(0 / 10) = 0`, so `totalPages` is not at
least 1 when `count = 0`, contrary to the claim. -/
theorem fetch_totalPages_count_zero_cex :
    fetchDevelopersTotalPages 1 (some ⟨0, 10⟩) = 0 ∧
    fetchProjectsTotalPages 1 (some ⟨0, 10⟩) = 0 ∧
    ¬ 1 ≤ fetchDevelopersTotalPages 1 (some ⟨0, 10⟩) := by
  decide

/-- C4 (amended): for every successful list load whose response carries a
pagination pair with `page_size > 0`, both controllers set `totalPages`
to `ceil(count / page_size)` — the least `m` with `count ≤ m * page_size`
— which is at least 1 whenever `count ≥ 1` but equals 0 when
`count = 0`. -/
theorem fetch_totalPages_ceil (prev count ps : Nat) (hps : 0 < ps) :
    fetchDevelopersTotalPages prev (some ⟨count, ps⟩) =
      fetchProjectsTotalPages prev (some ⟨count, ps⟩) ∧
    count ≤ fetchDevelopersTotalPages prev (some ⟨count, ps⟩) * ps ∧
    (∀ m, count ≤ m * ps → fetchDevelopersTotalPages prev (some ⟨count, ps⟩) ≤ m) ∧
    (1 ≤ count → 1 ≤ fetchDevelopersTotalPages prev (some ⟨count, ps⟩)) ∧
    (count = 0 → fetchDevelopersTotalPages prev (some ⟨count, ps⟩) = 0) := by
  have h := mathCeilDiv_spec count ps hps
  exact ⟨rfl, h.1, h.2.1, h.2.2.1, h.2.2.2⟩

/-- C4 witness: the amended pagination theorem at `count = 5`,
`page_size = 2`, where both controllers compute `totalPages = 3`. -/
theorem fetch_totalPages_ceil_witness :
    fetchDevelopersTotalPages 1 (some ⟨5, 2⟩) = fetchProjectsTotalPages 1 (some ⟨5, 2⟩) ∧
    5 ≤ fetchDevelopersTotalPages 1 (some ⟨5, 2⟩) * 2 ∧
    fetchDevelopersTotalPages 1 (some ⟨5, 2⟩) ≤ 3 ∧
    1 ≤ fetchDevelopersTotalPages 1 (some ⟨5, 2⟩) := by
  have h := fetch_totalPages_ceil 1 5 2 (by decide)
  exact ⟨h.1, h.2.1, h.2.2.1 3 (by decide), h.2.2.2.1 (by decide)⟩

/-- C5: with a loaded snapshot, the PUT body assembled by
`DeveloperModal.onSubmit` contains exactly the fields whose submitted
value differs from the snapshot; editing only `role` sends exactly
`{role: <new value>}`, and an edit that changes nothing issues no network
call at all. -/
theorem onSubmit_dirty_diff (devId : Nat) (orig data : CreateDeveloperRequest)
    (newRole : String) (hrole : newRole ≠ orig.role) :
    ((computeChangedData data orig).name = none ↔ data.name = orig.name) ∧
    ((computeChangedData data orig).email = none ↔ data.email = orig.email) ∧
    ((computeChangedData data orig).role = none ↔ data.role = orig.role) ∧
    ((computeChangedData data orig).graduation_date = none ↔
      data.graduation_date = orig.graduation_date) ∧
    ((computeChangedData data orig).industry_experience = none ↔
      data.industry_experience = orig.industry_experience) ∧
    ((computeChangedData data orig).employment_start_date = none ↔
      data.employment_start_date = orig.employment_start_date) ∧
    ((computeChangedData data orig).is_available = none ↔
      data.is_available = orig.is_available) ∧
    onSubmit (some devId) (some orig) { orig with role := newRole } =
      SubmitAction.putUpdate devId ⟨none, none, some newRole, none, none, none, none⟩ ∧
    onSubmit (some devId) (some orig) orig = SubmitAction.noChanges := by
  refine ⟨?_, ?_, ?_, ?_, ?_, ?_, ?_, ?_, ?_⟩
  · by_cases h : data.name = orig.name <;> simp [computeChangedData, h]
  · by_cases h : data.email = orig.email <;> simp [computeChangedData, h]
  · by_cases h : data.role = orig.role <;> simp [computeChangedData, h]
  · by_cases h : data.graduation_date = orig.graduation_date <;> simp [computeChangedData, h]
  · by_cases h : data.industry_experience = orig.industry_experience <;>
      simp [computeChangedData, h]
  · by_cases h : data.employment_start_date = orig.employment_start_date <;>
      simp [computeChangedData, h]
  · by_cases h : data.is_available = orig.is_available <;> simp [computeChangedData, h]
  · simp [onSubmit, computeChangedData, DeveloperPatch.keyCount, hrole]
  · simp [onSubmit, computeChangedData, DeveloperPatch.keyCount]

/-- C5 witness: the dirty-diff theorem at a concrete snapshot; the
role-only edit PUTs exactly the role, the unchanged form short-circuits. -/
theorem onSubmit_dirty_diff_witness :
    onSubmit (some 1) (some wOrigC5) { wOrigC5 with role := "Senior AI Engineer" } =
      SubmitAction.putUpdate 1 ⟨none, none, some "Senior AI Engineer", none, none, none, none⟩ ∧
    onSubmit (some 1) (some wOrigC5) wOrigC5 = SubmitAction.noChanges := by
  have h := onSubmit_dirty_diff 1 wOrigC5 wOrigC5 "Senior AI Engineer" (by decide)
  exact ⟨h.2.2.2.2.2.2.2.1, h.2.2.2.2.2.2.2.2⟩

/-- C6: with an empty skill selection the wizard's final action returns
before doing anything: the whole skill-selection state (projectData,
selectedSkills, selected skill area) is unchanged, exactly one warning
notification is emitted, and no HTTP request occurs. -/
theorem handleCreateProject_empty_guard (st : SkillSelectionState)
    (net : Except Unit DeveloperProject) (h : st.selectedSkills = []) :
    handleCreateProject st net =
      (st, [WizardEffect.toastError "Please select at least one skill"]) ∧
    ∀ e ∈ (handleCreateProject st net).2, ∀ payload, e ≠ WizardEffect.httpPost payload := by
  have h0 : handleCreateProject st net =
      (st, [WizardEffect.toastError "Please select at least one skill"]) := by
    simp [handleCreateProject, h]
  refine ⟨h0, ?_⟩
  rw [h0]
  intro e he payload
  simp only [List.mem_singleton] at he
  subst he
  simp

/-- C6 witness: the guard theorem at a concrete wizard state with an
empty selection. -/
theorem handleCreateProject_empty_guard_witness :
    handleCreateProject wStC6 (Except.error ()) =
      (wStC6, [WizardEffect.toastError "Please select at least one skill"]) ∧
    ∀ e ∈ (handleCreateProject wStC6 (Except.error ())).2, ∀ payload,
      e ≠ WizardEffect.httpPost payload :=
  handleCreateProject_empty_guard wStC6 (Except.error ()) rfl

/-- C7 counterexample: on a successful developer update the handler does
not replace the matching item in place — it re-fetches and adopts the
server page wholesale, so with local list `[wDevA]` and re-fetched page
`[wDevA1, wDevB]` the result differs from the by-id replacement of the
local list. -/
theorem handleSave_update_cex :
    handleSaveDeveloper (some 1) [wDevA] [wDevA1, wDevB] wDevA1 ≠
      [wDevA].map (fun d => if d.id = wDevA1.id then wDevA1 else d) ∧
    handleSaveDeveloperAction (some 1) = SaveDeveloperAction.refetchList := by
  constructor
  · decide
  · rfl

/-- C7 (amended): on a successful update the projects controller replaces
in place every item whose id equals the saved project's id (all other
items and their order unchanged, no re-fetch), while the developers
controller re-fetches the page (a GET request) and replaces `items`
wholesale with the server response; neither patches by first match only. -/
theorem handleSave_update_semantics (sel : DeveloperProject)
    (projects : List DeveloperProject) (project : DeveloperProject)
    (selId : Nat) (devs refetched : List Developer) (dev : Developer) :
    List.Forall₂
      (fun old new => (old.id = project.id → new = project) ∧ (old.id ≠ project.id → new = old))
      projects (handleSaveProject (some sel) projects project) ∧
    handleSaveDeveloper (some selId) devs refetched dev = refetched ∧
    handleSaveDeveloperAction (some selId) = SaveDeveloperAction.refetchList := by
  refine ⟨?_, rfl, rfl⟩
  show List.Forall₂ _ projects (projects.map _)
  induction projects with
  | nil => exact List.Forall₂.nil
  | cons p l ih =>
      simp only [List.map_cons]
      refine List.Forall₂.cons ⟨?_, ?_⟩ ih
      · intro hp
        simp [hp]
      · intro hp
        simp [hp]

/-- C7 witness: the amended save semantics at concrete lists. -/
theorem handleSave_update_semantics_witness :
    List.Forall₂
      (fun old new => (old.id = wProjX1.id → new = wProjX1) ∧ (old.id ≠ wProjX1.id → new = old))
      [wProjX, wProjY] (handleSaveProject (some wProjX) [wProjX, wProjY] wProjX1) ∧
    handleSaveDeveloper (some 1) [wDevA] [wDevA1, wDevB] wDevA1 = [wDevA1, wDevB] ∧
    handleSaveDeveloperAction (some 1) = SaveDeveloperAction.refetchList :=
  handleSave_update_semantics wProjX [wProjX, wProjY] wProjX1 1 [wDevA] [wDevA1, wDevB] wDevA1

/-- C8: the confirmed delete action removes from the list exactly the
items whose id equals the given id (every survivor has a different id,
the survivors form a subsequence of the original list — so relative
order and fields are untouched — and every non-matching item survives),
and no HTTP request is emitted; this holds for both controllers. -/
theorem handleDelete_removes_by_id (developers : List Developer)
    (projects : List DeveloperProject) (did pid : Nat) :
    (∀ d ∈ (handleDeleteDeveloper true developers did).1, d.id ≠ did) ∧
    ((handleDeleteDeveloper true developers did).1).Sublist developers ∧
    (∀ d ∈ developers, d.id ≠ did → d ∈ (handleDeleteDeveloper true developers did).1) ∧
    (∀ e ∈ (handleDeleteDeveloper true developers did).2, ∀ path,
      e ≠ ListEffect.httpRequest path) ∧
    (∀ p ∈ (handleDeleteProject true projects pid).1, p.id ≠ pid) ∧
    ((handleDeleteProject true projects pid).1).Sublist projects ∧
    (∀ p ∈ projects, p.id ≠ pid → p ∈ (handleDeleteProject true projects pid).1) ∧
    (∀ e ∈ (handleDeleteProject true projects pid).2, ∀ path,
      e ≠ ListEffect.httpRequest path) := by
  refine ⟨?_, ?_, ?_, ?_, ?_, ?_, ?_, ?_⟩
  · intro d hd
    have h := List.of_mem_filter hd
    simpa using h
  · exact List.filter_sublist _
  · intro d hd hne
    exact List.mem_filter.2 ⟨hd, by simpa using hne⟩
  · intro e he path
    simp only [handleDeleteDeveloper, if_pos, List.mem_singleton] at he
    subst he
    simp
  · intro p hp
    have h := List.of_mem_filter hp
    simpa using h
  · exact List.filter_sublist _
  · intro p hp hne
    exact List.mem_filter.2 ⟨hp, by simpa using hne⟩
  · intro e he path
    simp only [handleDeleteProject, if_pos, List.mem_singleton] at he
    subst he
    simp

/-- C8 witness: the delete theorem at concrete one-element lists whose
item does not match the deleted id, so it survives in place. -/
theorem handleDelete_removes_by_id_witness :
    wDevB.id ≠ 1 ∧
    ((handleDeleteDeveloper true [wDevB] 1).1).Sublist [wDevB] ∧
    wDevB ∈ (handleDeleteDeveloper true [wDevB] 1).1 ∧
    wProjY.id ≠ 11 ∧
    wProjY ∈ (handleDeleteProject true [wProjY] 11).1 := by
  have h := handleDelete_removes_by_id [wDevB] [wProjY] 1 11
  exact ⟨h.1 wDevB (by decide), h.2.1, h.2.2.1 wDevB (by decide) (by decide),
    h.2.2.2.2.1 wProjY (by decide), h.2.2.2.2.2.2.1 wProjY (by decide) (by decide)⟩

/-- C9: starting from a duplicate-free tech stack, both `addTech` (which
trims the input and appends only when the trimmed string is non-empty and
not already present) and `removeTech` preserve the no-duplicates
invariant. -/
theorem addTech_removeTech_nodup (newTech tech : String) (techStack : List String)
    (h : techStack.Nodup) :
    (addTech newTech techStack).Nodup ∧ (removeTech tech techStack).Nodup := by
  constructor
  · unfold addTech
    split
    · rename_i hcond
      simp [List.nodup_append, h, hcond.2]
    · exact h
  · exact h.filter _

/-- C9 witness: the invariant-preservation theorem at a concrete
one-element stack. -/
theorem addTech_removeTech_nodup_witness :
    (addTech " Vue " ["React"]).Nodup ∧ (removeTech "React" ["React"]).Nodup :=
  addTech_removeTech_nodup " Vue " "React" ["React"] (by decide)

/-- C10: for every developer and non-empty selection, the add-skills
handler invokes `apiService.addDeveloperSkills`, a method `ApiService`
does not define, so the call throws before any request is built and the
catch branch runs: a failure toast is emitted, no HTTP request occurs,
the modal stays open and the selection is unchanged. -/
theorem handleAddSkills_method_missing (devId : Nat) (selectedSkills : List Nat)
    (h : selectedSkills ≠ []) :
    handleAddSkills (some devId) selectedSkills =
      ⟨[SkillsModalEffect.toastError "Failed to add skills"], selectedSkills, false⟩ ∧
    "addDeveloperSkills" ∉ apiServiceMethods ∧
    ∀ e ∈ (handleAddSkills (some devId) selectedSkills).effects, ∀ path,
      e ≠ SkillsModalEffect.httpPost path := by
  have hmem : "addDeveloperSkills" ∉ apiServiceMethods := by decide
  have hlen : ¬ selectedSkills.length = 0 := by simpa using h
  have h0 : handleAddSkills (some devId) selectedSkills =
      ⟨[SkillsModalEffect.toastError "Failed to add skills"], selectedSkills, false⟩ := by
    simp [handleAddSkills, hlen, hmem]
  refine ⟨h0, hmem, ?_⟩
  rw [h0]
  intro e he path
  simp only [List.mem_singleton] at he
  subst he
  simp

/-- C10 witness: the method-missing theorem at a concrete developer and
selection. -/
theorem handleAddSkills_method_missing_witness :
    handleAddSkills (some 1) [5, 6] =
      ⟨[SkillsModalEffect.toastError "Failed to add skills"], [5, 6], false⟩ ∧
    "addDeveloperSkills" ∉ apiServiceMethods :=
  ⟨(handleAddSkills_method_missing 1 [5, 6] (by decide)).1,
   (handleAddSkills_method_missing 1 [5, 6] (by decide)).2.1⟩
